import Mathlib

/-!
Shallow embedding, in Lean 4, of the response-parsing and aggregation
pipeline of the AI code-review backend (`backend/ai_service.py`,
`backend/multi_file_service.py`, `backend/models.py`).

The external model (Gemini) and the JSON decoder (`json.loads`) are
collaborators, not code of this repository: the model is embedded as an
oracle giving, for each request the pipeline issues, either a reply text
or a raised exception (`Except String String`), and `json.loads` as an
abstract decoder `loads : String → Option JValue` (`none` models
`json.JSONDecodeError`).  Every theorem quantifies over both, so the
results hold for every behaviour of the collaborators.

Python-level conventions of the embedding:
* Python `str` becomes `String` / `List Char`; slicing, `find`, `rfind`,
  `strip`, `split` and `startswith` are re-implemented below with
  Python's semantics (including negative slice indices).  `strip` uses
  ASCII whitespace.
* Python `dict` becomes an association list `List (String × JValue)`
  (first-occurrence lookup; a dict produced by `json.loads` has unique
  keys, so this is faithful).
* A Python function that can raise is embedded as a total function in
  which every raising control path is routed to the handler that catches
  it in the source; exception *message texts* coming from the Python
  runtime (e.g. `AttributeError`) are abstracted by representative
  strings, since no property below depends on them.
* Pydantic validation of `FeedbackItem` / `FileFeedback` is embedded by
  `mkFeedbackItem` / the field checks in `try_single_file`: a required
  field that is missing or of the wrong JSON type fails validation
  (lax string-to-number coercions are not modelled; no claim depends on
  where exactly the validation boundary lies).
* Python `int(round _)` on the float average is embedded as exact
  rational arithmetic with round-half-to-even (`pyRound`), which is what
  CPython computes for every realistically sized score list.
-/

namespace CodeReview

/-! ### Python string primitives -/

/-- ASCII whitespace, as stripped by Python `str.strip()`. -/
def pyIsSpace (c : Char) : Bool :=
  c == (' ') || c == ('\t') || c == ('\n') || c == ('\r') || c == ('\x0b') || c == ('\x0c')

/-- Python `str.strip()` on a character list. -/
def pyStrip (l : List Char) : List Char :=
  ((l.dropWhile pyIsSpace).reverse.dropWhile pyIsSpace).reverse

/-- Python slice `l[a:b]` where `a ≥ 0` and `b` may be negative
(Python counts a negative end from the right). -/
def pySlice (l : List Char) (a : Nat) (b : Int) : List Char :=
  let e : Nat := if b < 0 then ((l.length : Int) + b).toNat else min b.toNat l.length
  (l.take e).drop a

/-- Python `hay.find(sub)`: index of the first occurrence of `sub` in
`hay`, `none` standing for Python's `-1`. -/
def listFindSub : List Char → List Char → Option Nat
  | [], sub => if sub.isEmpty then some 0 else none
  | c :: rest, sub =>
    if sub.isPrefixOf (c :: rest) then some 0
    else (listFindSub rest sub).map (· + 1)

/-- Python `hay.rfind(sub)`: index of the last occurrence of `sub` in
`hay`, `none` standing for Python's `-1`. -/
def listRFindSub : List Char → List Char → Option Nat
  | [], sub => if sub.isEmpty then some 0 else none
  | c :: rest, sub =>
    match listRFindSub rest sub with
    | some i => some (i + 1)
    | none => if sub.isPrefixOf (c :: rest) then some 0 else none

/-- Python `s.split(sep)` for a one-character separator. -/
def pySplit (sep : Char) : List Char → List (List Char)
  | [] => [[]]
  | c :: rest =>
    let r := pySplit sep rest
    if c = sep then [] :: r
    else
      match r with
      | [] => [[c]]
      | h :: t => (c :: h) :: t

/-- Python `str.lower()` (basic-latin case mapping). -/
def pyLower (l : List Char) : List Char :=
  l.map Char.toLower

/-! ### JSON values and Python dict operations

`JValue` is the value domain of the abstract `json.loads`; numbers are
modelled by `Int` (no claim depends on non-integral JSON numbers). -/

inductive JValue where
  | null : JValue
  | bool (b : Bool) : JValue
  | num (n : Int) : JValue
  | str (s : String) : JValue
  | arr (xs : List JValue) : JValue
  | obj (fields : List (String × JValue)) : JValue

/-- Python `d[k]` / `d.get(k)`: first-occurrence lookup. -/
def dictGet (d : List (String × JValue)) (k : String) : Option JValue :=
  match d with
  | [] => none
  | p :: rest => if p.1 = k then some p.2 else dictGet rest k

/-- Python `k in d`. -/
def dictContains (d : List (String × JValue)) (k : String) : Bool :=
  (dictGet d k).isSome

/-- Python `d[k] = v` (also the effect of `{**d, k: v}`): replace the
binding in place if present, append it otherwise. -/
def dictSet (d : List (String × JValue)) (k : String) (v : JValue) : List (String × JValue) :=
  match d with
  | [] => [(k, v)]
  | p :: rest => if p.1 = k then (k, v) :: rest else p :: dictSet rest k v

/-- Python `d.setdefault(k, v)`. -/
def dictSetdefault (d : List (String × JValue)) (k : String) (v : JValue) :
    List (String × JValue) :=
  if dictContains d k then d else d ++ [(k, v)]

/-- Python iteration over a JSON value: lists yield their elements,
strings their one-character substrings, dicts their keys; other values
raise `TypeError` (`none`). -/
def pyIter : JValue → Option (List JValue)
  | .arr xs => some xs
  | .str s => some (s.toList.map fun c => JValue.str (String.mk [c]))
  | .obj kvs => some (kvs.map fun p => JValue.str p.1)
  | _ => none

def asStr : JValue → Option String
  | .str s => some s
  | _ => none

def asInt : JValue → Option Int
  | .num n => some n
  | _ => none

/-! ### `backend/models.py` -/

inductive SupportedLanguage where
  | PYTHON | TYPESCRIPT | JAVASCRIPT | JAVA | CPP | CSHARP
deriving DecidableEq

structure FileInfo where
  filename : String
  content : String
  language : SupportedLanguage
deriving DecidableEq

structure FeedbackItem where
  category : String
  severity : String
  line : Int
  message : String
  suggestion : String
  filename : Option String := none
deriving DecidableEq

structure FileFeedback where
  filename : String
  feedback : List FeedbackItem
  summary : String
  score : Int
deriving DecidableEq

structure MultiFileReviewResponse where
  project_name : String
  files : List FileFeedback
  cross_file_issues : List FeedbackItem
  overall_summary : String
  overall_score : Int
  total_files : Nat
  total_issues : Nat
deriving DecidableEq

/-! ### `AIService.detect_language_from_filename` -/

/-- The `extension_map` literal of `detect_language_from_filename`. -/
def extension_map : List (String × SupportedLanguage) :=
  [(("py"), .PYTHON), (("ts"), .TYPESCRIPT), (("tsx"), .TYPESCRIPT),
   (("js"), .JAVASCRIPT), (("jsx"), .JAVASCRIPT), (("java"), .JAVA),
   (("cpp"), .CPP), (("cc"), .CPP), (("cxx"), .CPP), (("c"), .CPP),
   (("h"), .CPP), (("hpp"), .CPP), (("cs"), .CSHARP)]

/-- `AIService.detect_language_from_filename`:
`extension = filename.lower().split(".")[-1] if "." in filename else ""`,
then `extension_map.get(extension, SupportedLanguage.PYTHON)`. -/
def detect_language_from_filename (filename : String) : SupportedLanguage :=
  let extension : List Char :=
    if filename.toList.contains ('.') then (pySplit ('.') (pyLower filename.toList)).getLastD []
    else []
  (((extension_map.find? fun p => p.1.toList = extension).map Prod.snd).getD .PYTHON)

/-! ### Shared JSON-extraction shape

Both services locate a candidate JSON substring in the reply text the
same way for the fenced case; the marker is `"```json"` (7 characters)
and the closing fence `"```"`. -/

def fenceJson : List Char := ("```json").toList

def threeTicks : List Char := ("```").toList

/-- The fenced branch shared by both services: content between the end
of the first `"```json"` marker (at index `i`) and the next `"```"`,
stripped; with no closing fence, Python computes `text[i+7:-1]`. -/
def fencedCandidate (t : List Char) (i : Nat) : List Char :=
  let js := i + 7
  let jsonEnd : Int :=
    match listFindSub (t.drop js) threeTicks with
    | some k => ((js + k : Nat) : Int)
    | none => -1
  pyStrip (pySlice t js jsonEnd)

/-! ### `AIService.analyze_code` (`backend/ai_service.py`) -/

/-- JSON extraction inside `analyze_code`: fenced block, else a text
starting with `"{"`, else first `"{"` to last `"}"`; `none` models the
`raise ValueError("No valid JSON found in response")`. -/
def analyze_code_extract (response_text : String) : Option (List Char) :=
  let t := pyStrip response_text.toList
  match listFindSub t fenceJson with
  | some i => some (fencedCandidate t i)
  | none =>
    if t.head? = some ('{') then some t
    else
      match listFindSub t [('{')], listRFindSub t [('}')] with
      | some a, some b => some (pySlice t a ((b : Int) + 1))
      | _, _ => none

/-- The record returned by `analyze_code`'s `except json.JSONDecodeError`
handler. -/
def json_decode_error_fallback : List (String × JValue) :=
  [(("feedback"), .arr [.obj
      [(("category"), .str ("style")), (("severity"), .str ("medium")),
       (("line"), .num 1),
       (("message"), .str ("Unable to parse AI response, but code was analyzed")),
       (("suggestion"), .str ("Please try again or check the code syntax"))]]),
   (("summary"), .str ("Analysis completed with parsing issues")),
   (("overall_score"), .num 5)]

/-- The record returned by `analyze_code`'s `except Exception` handler,
with `emsg` standing for `str(e)`. -/
def generic_error_fallback (emsg : String) : List (String × JValue) :=
  [(("feedback"), .arr [.obj
      [(("category"), .str ("logic")), (("severity"), .str ("low")),
       (("line"), .num 1),
       (("message"), .str (("Analysis error: ") ++ emsg)),
       (("suggestion"), .str ("Please verify your code and try again"))]]),
   (("summary"), .str ("Unable to complete full analysis")),
   (("overall_score"), .num 5)]

def isObj : JValue → Bool
  | .obj _ => true
  | _ => false

/-- The per-item `setdefault` loop of `analyze_code`, in source order. -/
def itemSetdefaults (d : List (String × JValue)) : List (String × JValue) :=
  dictSetdefault (dictSetdefault (dictSetdefault (dictSetdefault (dictSetdefault
    d ("line") (.num 1))
    ("category") (.str ("style")))
    ("severity") (.str ("medium")))
    ("message") (.str ("Issue identified")))
    ("suggestion") (.str ("Consider reviewing this code"))

/-- `result["feedback"]` after `analyze_code` replaced a non-list value
by `[]`: the item list the `setdefault` loop runs over. -/
def acFeedbackList (d0 : List (String × JValue)) : List JValue :=
  match dictGet d0 ("feedback") with
  | some (.arr xs) => xs
  | _ => []

/-- The dict after `if not isinstance(result["feedback"], list):
result["feedback"] = []`. -/
def acNormalize (d0 : List (String × JValue)) : List (String × JValue) :=
  match dictGet d0 ("feedback") with
  | some (.arr _) => d0
  | _ => dictSet d0 ("feedback") (.arr [])

/-- One pass of the `setdefault` loop body on a feedback entry (only
reached when the entry is a dict). -/
def acSetItem (it : JValue) : JValue :=
  match it with
  | .obj itd => JValue.obj (itemSetdefaults itd)
  | x => x

/-- The structure validation and defaulting `analyze_code` applies to a
decoded value: must be a dict containing `"feedback"`; a non-list
`"feedback"` is replaced by `[]`; `summary` / `overall_score` are
defaulted; each feedback entry must be a dict (else `AttributeError`)
and gets its per-item defaults. -/
def analyze_code_process (v : JValue) : List (String × JValue) :=
  match v with
  | .obj d0 =>
    if dictContains d0 ("feedback") then
      if (acFeedbackList d0).all isObj then
        dictSet
          (dictSetdefault (dictSetdefault (acNormalize d0)
            ("summary") (.str ("Code analysis completed")))
            ("overall_score") (.num 5))
          ("feedback") (.arr ((acFeedbackList d0).map acSetItem))
      else generic_error_fallback ("feedback item has no attribute setdefault")
    else generic_error_fallback ("Invalid response structure")
  | _ => generic_error_fallback ("Invalid response structure")

/-- `AIService.analyze_code`, as a function of the abstract decoder and
of the model's behaviour on the request (`.error e` models
`generate_content` raising with message `e`). -/
def analyze_code (loads : String → Option JValue) (modelReply : Except String String) :
    List (String × JValue) :=
  match modelReply with
  | .error e => generic_error_fallback e
  | .ok text =>
    match analyze_code_extract text with
    | none => generic_error_fallback ("No valid JSON found in response")
    | some cand =>
      match loads (String.mk cand) with
      | none => json_decode_error_fallback
      | some v => analyze_code_process v

/-! ### `MultiFileAnalysisService` (`backend/multi_file_service.py`) -/

/-- The record returned by `parse_ai_response`'s
`except (json.JSONDecodeError, ValueError)` handler. -/
def parse_fallback : JValue :=
  .obj
    [(("feedback"), .arr [.obj
        [(("category"), .str ("style")), (("severity"), .str ("medium")),
         (("line"), .num 1),
         (("message"), .str ("Unable to parse analysis response")),
         (("suggestion"), .str ("Please try again or check file syntax"))]]),
     (("summary"), .str ("Analysis completed with parsing issues")),
     (("score"), .num 5)]

/-- JSON extraction inside `parse_ai_response`: fenced block, else a
text starting with `"{"` or `"["`, else first `"{"` to last `"}"`;
`none` models the `raise ValueError("No valid JSON found")`. -/
def extract_candidate (response_text : String) : Option (List Char) :=
  let t := pyStrip response_text.toList
  match listFindSub t fenceJson with
  | some i => some (fencedCandidate t i)
  | none =>
    if t.head? = some ('{') ∨ t.head? = some ('[') then some t
    else
      match listFindSub t [('{')], listRFindSub t [('}')] with
      | some a, some b => some (pySlice t a ((b : Int) + 1))
      | _, _ => none

/-- `MultiFileAnalysisService.parse_ai_response`. -/
def parse_ai_response (loads : String → Option JValue) (response_text : String) : JValue :=
  match extract_candidate response_text with
  | none => parse_fallback
  | some cand =>
    match loads (String.mk cand) with
    | some v => v
    | none => parse_fallback

/-- The optional `filename` field: absent or JSON `null` gives `None`,
a string gives the string, any other type fails validation. -/
def asOptFilename (d : List (String × JValue)) : Option (Option String) :=
  match dictGet d ("filename") with
  | none => some none
  | some .null => some none
  | some (.str s) => some (some s)
  | some _ => none

/-- Pydantic construction `FeedbackItem(**item)`: required string fields
`category`, `severity`, `message`, `suggestion`, required int `line`,
optional string `filename`; `none` models `ValidationError` (also the
`TypeError` of `**item` on a non-dict). -/
def mkFeedbackItem (v : JValue) : Option FeedbackItem :=
  match v with
  | .obj d =>
    match asStr ((dictGet d ("category")).getD .null),
          asStr ((dictGet d ("severity")).getD .null),
          asInt ((dictGet d ("line")).getD .null),
          asStr ((dictGet d ("message")).getD .null),
          asStr ((dictGet d ("suggestion")).getD .null),
          asOptFilename d with
    | some category, some severity, some line, some message, some suggestion, some filename =>
      some { category := category, severity := severity, line := line,
             message := message, suggestion := suggestion, filename := filename }
    | _, _, _, _, _, _ => none
  | _ => none

/-- The `except Exception` result of `analyze_single_file`, with `emsg`
standing for `str(e)`. -/
def error_file_feedback (filename : String) (emsg : String) : FileFeedback :=
  { filename := filename
    feedback := [{ category := ("logic"), severity := ("low"), line := 1,
                   message := ("Analysis error: ") ++ emsg,
                   suggestion := ("Please verify file content and try again"),
                   filename := some filename }]
    summary := ("Unable to analyze ") ++ filename
    score := 5 }

/-- The Python list comprehension `[FeedbackItem(**i) for i in vs]`:
builds the whole list, or `none` at the first item that fails. -/
def validateItemsWith (f : JValue → Option FeedbackItem) :
    List JValue → Option (List FeedbackItem)
  | [] => some []
  | v :: vs =>
    match f v, validateItemsWith f vs with
    | some i, some is => some (i :: is)
    | _, _ => none

/-- The dict merge `{**item, "filename": fn}` (a `TypeError` on a
non-dict `item` is reported by `mkFeedbackItem` returning `none` on it
unchanged). -/
def overrideFilename (fn : String) (it : JValue) : JValue :=
  match it with
  | .obj itd => .obj (dictSet itd ("filename") (.str fn))
  | x => x

/-- The `try` body of `analyze_single_file` after the model replied:
`none` models any exception reaching the `except Exception` handler
(`result.get` on a non-dict, iterating a non-iterable `"feedback"`,
`**item` on a non-dict, or pydantic validation failure).  Before
validation each item's `filename` is overwritten with the analyzed
file's name (`{**item, "filename": file_info.filename}`). -/
def try_single_file (loads : String → Option JValue) (fi : FileInfo) (text : String) :
    Option FileFeedback :=
  match parse_ai_response loads text with
  | .obj d =>
    match pyIter ((dictGet d ("feedback")).getD (.arr [])) with
    | some vs =>
      match validateItemsWith (fun it => mkFeedbackItem (overrideFilename fi.filename it)) vs with
      | some feedback_items =>
        match asStr ((dictGet d ("summary")).getD (.str (("Analysis for ") ++ fi.filename))),
              asInt ((dictGet d ("score")).getD (.num 5)) with
        | some summary, some score =>
          some { filename := fi.filename, feedback := feedback_items,
                 summary := summary, score := score }
        | _, _ => none
      | none => none
    | none => none
  | _ => none

/-- `MultiFileAnalysisService.analyze_single_file` as a function of the
model's behaviour on the request for this file. -/
def analyze_single_file (loads : String → Option JValue) (fi : FileInfo)
    (reply : Except String String) : FileFeedback :=
  match reply with
  | .error e => error_file_feedback fi.filename e
  | .ok text => (try_single_file loads fi text).getD
      (error_file_feedback fi.filename ("analysis failed"))

/-- The `except Exception` item of `analyze_cross_file_dependencies`. -/
def cross_error_item (emsg : String) : FeedbackItem :=
  { category := ("logic"), severity := ("low"), line := 1,
    message := ("Cross-file analysis error: ") ++ emsg,
    suggestion := ("Manual review recommended for cross-file dependencies"),
    filename := some ("multiple_files") }

/-- The `try` body of `analyze_cross_file_dependencies` after the model
replied: a list reply is validated item by item, a dict reply with a
`"feedback"` key likewise, anything else yields `[]`; `none` models an
exception reaching the `except Exception` handler. -/
def try_cross_file (loads : String → Option JValue) (text : String) :
    Option (List FeedbackItem) :=
  match parse_ai_response loads text with
  | .arr items => validateItemsWith mkFeedbackItem items
  | .obj d =>
    if dictContains d ("feedback") then
      match pyIter ((dictGet d ("feedback")).getD .null) with
      | some vs => validateItemsWith mkFeedbackItem vs
      | none => none
    else some []
  | _ => some []

/-- `MultiFileAnalysisService.analyze_cross_file_dependencies`: with
fewer than two files it returns `[]` before any model request. -/
def analyze_cross_file_dependencies (loads : String → Option JValue)
    (files : List FileInfo) (reply : Except String String) : List FeedbackItem :=
  if files.length < 2 then []
  else
    match reply with
    | .error e => [cross_error_item e]
    | .ok text => (try_cross_file loads text).getD
        [cross_error_item ("cross-file analysis failed")]

/-- `MultiFileAnalysisService.generate_overall_summary`. -/
def generate_overall_summary (file_analyses : List FileFeedback)
    (cross_file_issues : List FeedbackItem) : String :=
  let total_issues := (file_analyses.map fun fa => fa.feedback.length).sum
      + cross_file_issues.length
  let high_severity :=
    (file_analyses.map fun fa =>
        (fa.feedback.filter fun f => f.severity == ("high")).length).sum
      + (cross_file_issues.filter fun f => f.severity == ("high")).length
  if total_issues = 0 then
    ("Excellent codebase! No significant issues found across all files.")
  else if high_severity > 0 then
    ("Codebase needs attention: ") ++ toString total_issues
      ++ (" total issues found, including ") ++ toString high_severity
      ++ (" high-severity issues.")
  else
    ("Good codebase with room for improvement: ") ++ toString total_issues
      ++ (" minor to medium issues found.")

/-- Python `round` on an exact rational: round half to even. -/
def pyRound (q : ℚ) : Int :=
  if q - ⌊q⌋ < 1/2 then ⌊q⌋
  else if 1/2 < q - ⌊q⌋ then ⌊q⌋ + 1
  else if ⌊q⌋ % 2 = 0 then ⌊q⌋ else ⌊q⌋ + 1

/-- `MultiFileAnalysisService.calculate_overall_score`:
5 on an empty list, else `int(round(sum(scores) / len))`. -/
def calculate_overall_score (file_analyses : List FileFeedback) : Int :=
  if file_analyses.length = 0 then 5
  else pyRound ((file_analyses.map fun fa => (fa.score : ℚ)).sum
      / (file_analyses.length : ℚ))

/-- The model, as seen by `analyze_codebase`: a reply (or raised
exception) for the per-file request issued for the `i`-th file, and one
for the cross-file request. -/
structure ModelOracle where
  fileReply : Nat → Except String String
  crossReply : Except String String

/-- The per-file loop of `analyze_codebase`, with `i` the index of the
next per-file model request. -/
def analyze_files (loads : String → Option JValue) (fileReply : Nat → Except String String) :
    List FileInfo → Nat → List FileFeedback
  | [], _ => []
  | f :: rest, i =>
    analyze_single_file loads f (fileReply i) :: analyze_files loads fileReply rest (i + 1)

/-- `MultiFileAnalysisService.analyze_codebase`. -/
def analyze_codebase (loads : String → Option JValue) (oracle : ModelOracle)
    (files : List FileInfo) (project_name : String) : MultiFileReviewResponse :=
  let file_analyses := analyze_files loads oracle.fileReply files 0
  let cross_file_issues := analyze_cross_file_dependencies loads files oracle.crossReply
  let all_feedback := (file_analyses.map fun fa => fa.feedback).flatten ++ cross_file_issues
  { project_name := project_name
    files := file_analyses
    cross_file_issues := cross_file_issues
    overall_summary := generate_overall_summary file_analyses cross_file_issues
    overall_score := calculate_overall_score file_analyses
    total_files := files.length
    total_issues := all_feedback.length }

/-! ### Auxiliary definitions used by the theorem statements -/

/-- A feedback entry of the record returned by `analyze_code` has all
five item keys. -/
def itemHasKeys (v : JValue) : Bool :=
  match v with
  | .obj d =>
    dictContains d ("category") && dictContains d ("severity") && dictContains d ("line")
      && dictContains d ("message") && dictContains d ("suggestion")
  | _ => false

/-- Modelled from the spec's words, for comparison with
`calculate_overall_score`: "the arithmetic mean of the per-file scores
rounded to the nearest integer" with the standard nearest-integer
rounding (Mathlib's `round`, halves up), "5 when the list of file
analyses is empty". -/
def claimed_overall_score (file_analyses : List FileFeedback) : Int :=
  if file_analyses.length = 0 then 5
  else round ((file_analyses.map fun fa => (fa.score : ℚ)).sum / (file_analyses.length : ℚ))

/-- The `FileFeedback` that the success path of `analyze_single_file`
builds out of the `parse_ai_response` fallback record. -/
def parse_fallback_file (fn : String) : FileFeedback :=
  { filename := fn
    feedback := [{ category := ("style"), severity := ("medium"), line := 1,
                   message := ("Unable to parse analysis response"),
                   suggestion := ("Please try again or check file syntax"),
                   filename := some fn }]
    summary := ("Analysis completed with parsing issues")
    score := 5 }

/-- A file analysis carrying only a score (used in concrete inputs). -/
def fbScore (s : Int) : FileFeedback :=
  { filename := ("f"), feedback := [], summary := ("s"), score := s }

/-- A decoder that always fails (concrete witness input). -/
def loadsNone : String → Option JValue := fun _ => none

/-- A concrete input file (witness input). -/
def fiPy : FileInfo :=
  { filename := ("a.py"), content := ("print(1)"), language := .PYTHON }

/-- A decoder that returns one fixed well-formed review record whose
single feedback item carries a wrong `filename` (witness input). -/
def loadsItem : String → Option JValue := fun _ =>
  some (.obj
    [(("feedback"), .arr [.obj
        [(("category"), .str ("security")), (("severity"), .str ("high")),
         (("line"), .num 3), (("message"), .str ("m")),
         (("suggestion"), .str ("s")), (("filename"), .str ("WRONG"))]]),
     (("summary"), .str ("ok")), (("score"), .num 9)])

/-- A concrete oracle (witness input). -/
def oracleOk : ModelOracle :=
  { fileReply := fun _ => .ok ("\x7b\x7d"), crossReply := .ok ("\x7b\x7d") }

/-! ### Dictionary lemmas -/

theorem dictGet_dictSet_self (d : List (String × JValue)) (k : String) (v : JValue) :
    dictGet (dictSet d k v) k = some v := by
  induction d with
  | nil => simp [dictSet, dictGet]
  | cons p rest ih =>
    by_cases h : p.1 = k
    · simp [dictSet, dictGet, h]
    · simp [dictSet, dictGet, h, ih]

theorem dictGet_dictSet_ne (d : List (String × JValue)) (k k' : String) (v : JValue)
    (h : k' ≠ k) : dictGet (dictSet d k v) k' = dictGet d k' := by
  induction d with
  | nil => simp [dictSet, dictGet, Ne.symm h]
  | cons p rest ih =>
    by_cases hp : p.1 = k
    · subst hp
      simp [dictSet, dictGet, Ne.symm h]
    · simp only [dictSet, if_neg hp]
      by_cases hq : p.1 = k'
      · simp [dictGet, hq]
      · simp [dictGet, hq, ih]

theorem dictGet_append (d1 d2 : List (String × JValue)) (k : String) :
    dictGet (d1 ++ d2) k =
      match dictGet d1 k with
      | some v => some v
      | none => dictGet d2 k := by
  induction d1 with
  | nil => simp [dictGet]
  | cons p rest ih =>
    by_cases h : p.1 = k
    · simp [dictGet, h]
    · simp [dictGet, h, ih]

theorem dictContains_dictSetdefault_self (d : List (String × JValue)) (k : String)
    (v : JValue) : dictContains (dictSetdefault d k v) k = true := by
  unfold dictSetdefault
  by_cases h : dictContains d k
  · rw [if_pos h]
    exact h
  · rw [if_neg h]
    cases hg : dictGet d k with
    | some w => exact absurd (by simp [dictContains, hg]) h
    | none => simp [dictContains, dictGet_append, hg, dictGet]

theorem dictContains_dictSetdefault_of (d : List (String × JValue)) (k0 k : String)
    (v : JValue) (h : dictContains d k = true) :
    dictContains (dictSetdefault d k0 v) k = true := by
  unfold dictSetdefault
  by_cases h0 : dictContains d k0
  · rw [if_pos h0]
    exact h
  · rw [if_neg h0]
    rcases Option.isSome_iff_exists.mp h with ⟨w, hw⟩
    simp [dictContains, dictGet_append, hw]

theorem dictContains_dictSet_of (d : List (String × JValue)) (k0 k : String) (v : JValue)
    (h : dictContains d k = true) : dictContains (dictSet d k0 v) k = true := by
  by_cases hk : k = k0
  · subst hk
    simp [dictContains, dictGet_dictSet_self]
  · simpa [dictContains, dictGet_dictSet_ne d k0 k v hk] using h

theorem itemHasKeys_itemSetdefaults (d : List (String × JValue)) :
    itemHasKeys (.obj (itemSetdefaults d)) = true := by
  unfold itemHasKeys itemSetdefaults
  simp only [Bool.and_eq_true]
  refine ⟨⟨⟨⟨?_, ?_⟩, ?_⟩, ?_⟩, ?_⟩
  · exact dictContains_dictSetdefault_of _ _ _ _ (dictContains_dictSetdefault_of _ _ _ _
      (dictContains_dictSetdefault_of _ _ _ _ (dictContains_dictSetdefault_self _ _ _)))
  · exact dictContains_dictSetdefault_of _ _ _ _ (dictContains_dictSetdefault_of _ _ _ _
      (dictContains_dictSetdefault_self _ _ _))
  · exact dictContains_dictSetdefault_of _ _ _ _ (dictContains_dictSetdefault_of _ _ _ _
      (dictContains_dictSetdefault_of _ _ _ _ (dictContains_dictSetdefault_of _ _ _ _
        (dictContains_dictSetdefault_self _ _ _))))
  · exact dictContains_dictSetdefault_of _ _ _ _ (dictContains_dictSetdefault_self _ _ _)
  · exact dictContains_dictSetdefault_self _ _ _

/-! ### Rounding lemmas -/

theorem pyRound_sub_le_half (q : ℚ) : |(pyRound q : ℚ) - q| ≤ 1/2 := by
  have h0 : ((⌊q⌋ : ℚ)) ≤ q := Int.floor_le q
  have h1 : q < (⌊q⌋ : ℚ) + 1 := Int.lt_floor_add_one q
  unfold pyRound
  split_ifs with hlt hgt heven
  · rw [abs_le]
    constructor <;> push_cast <;> linarith
  · rw [abs_le]
    constructor <;> push_cast <;> linarith
  · have heq : q - (⌊q⌋ : ℚ) = 1/2 := le_antisymm (not_lt.mp hgt) (not_lt.mp hlt)
    rw [abs_le]
    constructor <;> push_cast <;> linarith
  · have heq : q - (⌊q⌋ : ℚ) = 1/2 := le_antisymm (not_lt.mp hgt) (not_lt.mp hlt)
    rw [abs_le]
    constructor <;> push_cast <;> linarith

theorem pyRound_even_of_tie (q : ℚ) (h : q - (⌊q⌋ : ℚ) = 1/2) : pyRound q % 2 = 0 := by
  unfold pyRound
  rw [if_neg (by rw [h]; norm_num), if_neg (by rw [h]; norm_num)]
  split_ifs with he
  · exact he
  · omega

/-! ### Parse and validation lemmas -/

theorem parse_ai_response_of_extract_none (loads : String → Option JValue) (text : String)
    (h : extract_candidate text = none) : parse_ai_response loads text = parse_fallback := by
  simp [parse_ai_response, h]

theorem parse_ai_response_of_decode_none (loads : String → Option JValue) (text : String)
    (cand : List Char) (h1 : extract_candidate text = some cand)
    (h2 : loads (String.mk cand) = none) : parse_ai_response loads text = parse_fallback := by
  simp [parse_ai_response, h1, h2]

theorem try_single_file_of_parse_fallback (loads : String → Option JValue) (fi : FileInfo)
    (text : String) (h : parse_ai_response loads text = parse_fallback) :
    try_single_file loads fi text = some (parse_fallback_file fi.filename) := by
  unfold try_single_file
  rw [h]
  rfl

theorem mkFeedbackItem_overridden_filename (d : List (String × JValue)) (fn : String)
    (it : FeedbackItem)
    (h : mkFeedbackItem (.obj (dictSet d ("filename") (.str fn))) = some it) :
    it.filename = some fn := by
  unfold mkFeedbackItem asOptFilename at h
  dsimp only at h
  rw [dictGet_dictSet_self] at h
  split at h
  · rename_i category severity line message suggestion filename
      hcat hsev hline hmsg hsug hfn
    cases h
    cases hfn
    rfl
  · exact absurd h (by simp)

theorem validateItemsWith_filename (fn : String) (vs : List JValue)
    (items : List FeedbackItem)
    (h : validateItemsWith (fun it => mkFeedbackItem (overrideFilename fn it)) vs = some items) :
    ∀ i ∈ items, i.filename = some fn := by
  induction vs generalizing items with
  | nil =>
    unfold validateItemsWith at h
    cases h
    simp
  | cons v vs ih =>
    unfold validateItemsWith at h
    split at h
    · rename_i i is hi his
      cases h
      intro x hx
      rcases List.mem_cons.mp hx with rfl | hx
      · cases v with
        | obj itd => exact mkFeedbackItem_overridden_filename itd fn x hi
        | null => exact absurd hi (by simp [overrideFilename, mkFeedbackItem])
        | bool b => exact absurd hi (by simp [overrideFilename, mkFeedbackItem])
        | num n => exact absurd hi (by simp [overrideFilename, mkFeedbackItem])
        | str s => exact absurd hi (by simp [overrideFilename, mkFeedbackItem])
        | arr xs => exact absurd hi (by simp [overrideFilename, mkFeedbackItem])
      · exact ih is his x hx
    · exact absurd h (by simp)

theorem try_single_file_some (loads : String → Option JValue) (fi : FileInfo) (text : String)
    (ff : FileFeedback) (h : try_single_file loads fi text = some ff) :
    ff.filename = fi.filename ∧ ∀ it ∈ ff.feedback, it.filename = some fi.filename := by
  unfold try_single_file at h
  split at h
  · rename_i d
    split at h
    · rename_i vs hvs
      split at h
      · rename_i feedback_items hval
        split at h
        · rename_i summary score hsum hscore
          cases h
          exact ⟨rfl, validateItemsWith_filename fi.filename vs feedback_items hval⟩
        · exact absurd h (by simp)
      · exact absurd h (by simp)
    · exact absurd h (by simp)
  · exact absurd h (by simp)

/-! ### Wellformedness of `analyze_code` results -/

theorem generic_error_fallback_wf (e : String) :
    (∃ items, dictGet (generic_error_fallback e) ("feedback") = some (.arr items) ∧
       ∀ w ∈ items, itemHasKeys w = true) ∧
    dictContains (generic_error_fallback e) ("summary") = true ∧
    dictContains (generic_error_fallback e) ("overall_score") = true := by
  refine ⟨⟨_, rfl, ?_⟩, rfl, rfl⟩
  intro w hw
  rw [List.mem_singleton] at hw
  subst hw
  rfl

theorem json_decode_error_fallback_wf :
    (∃ items, dictGet json_decode_error_fallback ("feedback") = some (.arr items) ∧
       ∀ w ∈ items, itemHasKeys w = true) ∧
    dictContains json_decode_error_fallback ("summary") = true ∧
    dictContains json_decode_error_fallback ("overall_score") = true := by
  refine ⟨⟨_, rfl, ?_⟩, rfl, rfl⟩
  intro w hw
  rw [List.mem_singleton] at hw
  subst hw
  rfl

theorem analyze_code_process_wf (v : JValue) :
    (∃ items, dictGet (analyze_code_process v) ("feedback") = some (.arr items) ∧
       ∀ w ∈ items, itemHasKeys w = true) ∧
    dictContains (analyze_code_process v) ("summary") = true ∧
    dictContains (analyze_code_process v) ("overall_score") = true := by
  cases v with
  | obj d0 =>
    unfold analyze_code_process
    dsimp only
    by_cases hfb : dictContains d0 ("feedback")
    · rw [if_pos hfb]
      by_cases hall : (acFeedbackList d0).all isObj
      · rw [if_pos hall]
        refine ⟨⟨_, dictGet_dictSet_self _ _ _, ?_⟩, ?_, ?_⟩
        · intro w hw
          rcases List.mem_map.mp hw with ⟨it, hit, rfl⟩
          have hobj : isObj it = true := List.all_eq_true.mp hall it hit
          cases it with
          | obj itd => exact itemHasKeys_itemSetdefaults itd
          | null => exact absurd hobj (by simp [isObj])
          | bool b => exact absurd hobj (by simp [isObj])
          | num n => exact absurd hobj (by simp [isObj])
          | str s => exact absurd hobj (by simp [isObj])
          | arr xs => exact absurd hobj (by simp [isObj])
        · exact dictContains_dictSet_of _ _ _ _
            (dictContains_dictSetdefault_of _ _ _ _ (dictContains_dictSetdefault_self _ _ _))
        · exact dictContains_dictSet_of _ _ _ _ (dictContains_dictSetdefault_self _ _ _)
      · rw [if_neg hall]
        exact generic_error_fallback_wf _
    · rw [if_neg hfb]
      exact generic_error_fallback_wf _
  | null => exact generic_error_fallback_wf _
  | bool b => exact generic_error_fallback_wf _
  | num n => exact generic_error_fallback_wf _
  | str s => exact generic_error_fallback_wf _
  | arr xs => exact generic_error_fallback_wf _

/-! ### Claim theorems -/

/-- C1.  For every model behaviour and every reply text,
`AIService.analyze_code` returns a record (the embedding is a total
function, every raising control path of the source being routed to one
of its two `except` handlers) that always carries the keys `"feedback"`
(a list each of whose entries has the keys `category`, `severity`,
`line`, `message`, `suggestion`), `"summary"` and `"overall_score"`;
whenever JSON extraction or decoding of the reply fails, the result is
one of the two fixed safe-default records, with `overall_score = 5` and
exactly one feedback item. -/
theorem analyze_code_wellformed (loads : String → Option JValue)
    (reply : Except String String) :
    (∃ items, dictGet (analyze_code loads reply) ("feedback") = some (.arr items) ∧
       ∀ w ∈ items, itemHasKeys w = true) ∧
    dictContains (analyze_code loads reply) ("summary") = true ∧
    dictContains (analyze_code loads reply) ("overall_score") = true ∧
    (∀ text, reply = Except.ok text →
      (analyze_code_extract text = none ∨
        ∃ cand, analyze_code_extract text = some cand ∧ loads (String.mk cand) = none) →
      (analyze_code loads reply = generic_error_fallback ("No valid JSON found in response") ∨
         analyze_code loads reply = json_decode_error_fallback) ∧
      dictGet (analyze_code loads reply) ("overall_score") = some (.num 5) ∧
      ∃ it, dictGet (analyze_code loads reply) ("feedback") = some (.arr [it])) := by
  cases reply with
  | error e =>
    have hwf := generic_error_fallback_wf e
    exact ⟨hwf.1, hwf.2.1, hwf.2.2, fun text htext => absurd htext (by simp)⟩
  | ok text =>
    cases hx : analyze_code_extract text with
    | none =>
      have hr : analyze_code loads (Except.ok text)
          = generic_error_fallback ("No valid JSON found in response") := by
        simp [analyze_code, hx]
      rw [hr]
      have hwf := generic_error_fallback_wf ("No valid JSON found in response")
      refine ⟨hwf.1, hwf.2.1, hwf.2.2, ?_⟩
      intro t ht _
      cases ht
      exact ⟨Or.inl rfl, rfl, ⟨_, rfl⟩⟩
    | some cand =>
      cases hl : loads (String.mk cand) with
      | none =>
        have hr : analyze_code loads (Except.ok text) = json_decode_error_fallback := by
          simp [analyze_code, hx, hl]
        rw [hr]
        refine ⟨json_decode_error_fallback_wf.1, json_decode_error_fallback_wf.2.1,
          json_decode_error_fallback_wf.2.2, ?_⟩
        intro t ht _
        cases ht
        exact ⟨Or.inr rfl, rfl, ⟨_, rfl⟩⟩
      | some v =>
        have hr : analyze_code loads (Except.ok text) = analyze_code_process v := by
          simp [analyze_code, hx, hl]
        rw [hr]
        have hwf := analyze_code_process_wf v
        refine ⟨hwf.1, hwf.2.1, hwf.2.2, ?_⟩
        intro t ht hfail
        cases ht
        rcases hfail with hnone | ⟨cand2, hc2, hl2⟩
        · rw [hx] at hnone
          cases hnone
        · rw [hx] at hc2
          cases hc2
          rw [hl2] at hl
          cases hl

/-- Witness for C1 at a concrete failing reply. -/
theorem analyze_code_wellformed_witness :
    analyze_code loadsNone (Except.ok ("no json here"))
        = generic_error_fallback ("No valid JSON found in response") ∧
    dictGet (analyze_code loadsNone (Except.ok ("no json here"))) ("overall_score")
        = some (.num 5) := by
  have h := (analyze_code_wellformed loadsNone (Except.ok ("no json here"))).2.2.2
    ("no json here") rfl (Or.inl (by rfl))
  exact ⟨rfl, h.2.1⟩

/-- C2.  `analyze_codebase` reports `total_files` equal to the number of
input files and `total_issues` equal to the sum of the per-file feedback
lengths plus the number of cross-file issues, for every decoder, model
behaviour, file list and project name. -/
theorem analyze_codebase_counts (loads : String → Option JValue) (oracle : ModelOracle)
    (files : List FileInfo) (pname : String) :
    (analyze_codebase loads oracle files pname).total_files = files.length ∧
    (analyze_codebase loads oracle files pname).total_issues =
      ((analyze_codebase loads oracle files pname).files.map fun fa => fa.feedback.length).sum
        + (analyze_codebase loads oracle files pname).cross_file_issues.length := by
  unfold analyze_codebase
  refine ⟨rfl, ?_⟩
  dsimp only
  rw [List.length_append, List.length_flatten, List.map_map]
  rfl

/-- C3 counterexample: on two files with scores `2` and `3` the code
computes `2` (Python `round` ties go to even), while the claimed
"arithmetic mean rounded to the nearest integer" is `3`. -/
theorem calculate_overall_score_counterexample :
    calculate_overall_score [fbScore 2, fbScore 3] = 2 ∧
    claimed_overall_score [fbScore 2, fbScore 3] = 3 ∧
    calculate_overall_score [fbScore 2, fbScore 3]
      ≠ claimed_overall_score [fbScore 2, fbScore 3] := by
  have h1 : calculate_overall_score [fbScore 2, fbScore 3] = 2 := by
    norm_num [calculate_overall_score, pyRound, fbScore]
  have h2 : claimed_overall_score [fbScore 2, fbScore 3] = 3 := by
    norm_num [claimed_overall_score, fbScore, round_eq]
  refine ⟨h1, h2, ?_⟩
  rw [h1, h2]
  decide

/-- C3 (amended).  `calculate_overall_score` returns `5` on an empty
list; on a non-empty list it returns an integer within `1/2` of the
arithmetic mean of the scores, and when the mean is exactly halfway
between two integers the even one is chosen (Python's round-half-to-even,
rather than the conventional nearest-integer rounding). -/
theorem calculate_overall_score_rounds_mean (fas : List FileFeedback) :
    (fas.length = 0 → calculate_overall_score fas = 5) ∧
    (fas.length ≠ 0 →
      |(calculate_overall_score fas : ℚ)
          - (fas.map fun fa => (fa.score : ℚ)).sum / (fas.length : ℚ)| ≤ 1/2 ∧
      ((fas.map fun fa => (fa.score : ℚ)).sum / (fas.length : ℚ)
          - (⌊(fas.map fun fa => (fa.score : ℚ)).sum / (fas.length : ℚ)⌋ : ℚ) = 1/2 →
        calculate_overall_score fas % 2 = 0)) := by
  constructor
  · intro h
    simp [calculate_overall_score, h]
  · intro h
    unfold calculate_overall_score
    rw [if_neg h]
    exact ⟨pyRound_sub_le_half _, fun ht => pyRound_even_of_tie _ ht⟩

/-- Witness for C3 (amended) at scores `[2, 3]`. -/
theorem calculate_overall_score_rounds_mean_witness :
    |(calculate_overall_score [fbScore 2, fbScore 3] : ℚ)
        - (([fbScore 2, fbScore 3].map fun fa => (fa.score : ℚ)).sum
            / (([fbScore 2, fbScore 3] : List FileFeedback).length : ℚ))| ≤ 1/2 ∧
    calculate_overall_score [fbScore 2, fbScore 3] % 2 = 0 := by
  have h := (calculate_overall_score_rounds_mean [fbScore 2, fbScore 3]).2 (by decide)
  exact ⟨h.1, h.2 (by norm_num [fbScore])⟩

/-- C5 counterexample: an unparseable reply is a failure the claim
covers, yet the returned record's single feedback item is the parse
fallback's medium-severity `"style"` item, not a low-severity `"logic"`
item. -/
theorem analyze_single_file_counterexample :
    (analyze_single_file loadsNone fiPy (Except.ok ("no json here"))).score = 5 ∧
    (analyze_single_file loadsNone fiPy (Except.ok ("no json here"))).feedback.map
        (fun f => (f.category, f.severity)) = [(("style"), ("medium"))] ∧
    (analyze_single_file loadsNone fiPy (Except.ok ("no json here"))).feedback.map
        (fun f => (f.category, f.severity)) ≠ [(("logic"), ("low"))] := by
  refine ⟨rfl, rfl, ?_⟩
  decide

/-- C5 (amended).  `analyze_single_file` is total (every raising path of
the source reaches its `except Exception` handler) and always returns a
`FileFeedback` for the analyzed filename; on a model error or on any
exception in the success path (including feedback items that fail
validation) the result has score 5 and exactly one low-severity
`"logic"` item, while on an unparseable or undecodable reply the result
has score 5 and exactly one medium-severity `"style"` item (the parse
fallback), so one failing file never aborts `analyze_codebase`. -/
theorem analyze_single_file_failure_modes (loads : String → Option JValue) (fi : FileInfo)
    (reply : Except String String) :
    (analyze_single_file loads fi reply).filename = fi.filename ∧
    (∀ e, reply = Except.error e →
      (analyze_single_file loads fi reply).score = 5 ∧
      (analyze_single_file loads fi reply).feedback.map (fun f => (f.category, f.severity))
        = [(("logic"), ("low"))]) ∧
    (∀ text, reply = Except.ok text → try_single_file loads fi text = none →
      (analyze_single_file loads fi reply).score = 5 ∧
      (analyze_single_file loads fi reply).feedback.map (fun f => (f.category, f.severity))
        = [(("logic"), ("low"))]) ∧
    (∀ text, reply = Except.ok text →
      (extract_candidate text = none ∨
        ∃ cand, extract_candidate text = some cand ∧ loads (String.mk cand) = none) →
      (analyze_single_file loads fi reply).score = 5 ∧
      (analyze_single_file loads fi reply).feedback.map (fun f => (f.category, f.severity))
        = [(("style"), ("medium"))]) := by
  refine ⟨?_, ?_, ?_, ?_⟩
  · cases reply with
    | error e => rfl
    | ok text =>
      cases h : try_single_file loads fi text with
      | none =>
        show ((try_single_file loads fi text).getD _).filename = _
        rw [h]
        rfl
      | some ff =>
        show ((try_single_file loads fi text).getD _).filename = _
        rw [h]
        exact (try_single_file_some loads fi text ff h).1
  · intro e he
    subst he
    exact ⟨rfl, rfl⟩
  · intro text ht hnone
    subst ht
    constructor
    · show ((try_single_file loads fi text).getD _).score = 5
      rw [hnone]
      rfl
    · show (((try_single_file loads fi text).getD _).feedback.map _) = _
      rw [hnone]
      rfl
  · intro text ht hfail
    subst ht
    have hp : parse_ai_response loads text = parse_fallback := by
      rcases hfail with hnone | ⟨cand, hc, hl⟩
      · exact parse_ai_response_of_extract_none loads text hnone
      · exact parse_ai_response_of_decode_none loads text cand hc hl
    have ht1 := try_single_file_of_parse_fallback loads fi text hp
    constructor
    · show ((try_single_file loads fi text).getD _).score = 5
      rw [ht1]
      rfl
    · show (((try_single_file loads fi text).getD _).feedback.map _) = _
      rw [ht1]
      rfl

/-- Witness for C5 (amended) at a raised model exception. -/
theorem analyze_single_file_failure_modes_witness :
    (analyze_single_file loadsNone fiPy (Except.error ("boom"))).filename = ("a.py") ∧
    (analyze_single_file loadsNone fiPy (Except.error ("boom"))).score = 5 ∧
    (analyze_single_file loadsNone fiPy (Except.error ("boom"))).feedback.map
        (fun f => (f.category, f.severity)) = [(("logic"), ("low"))] := by
  have h := analyze_single_file_failure_modes loadsNone fiPy (Except.error ("boom"))
  have h2 := h.2.1 ("boom") rfl
  exact ⟨h.1, h2.1, h2.2⟩

/-- C9.  Every feedback item of the `FileFeedback` returned by
`analyze_single_file` — on the success path, where the dict merge
`{**item, "filename": file_info.filename}` overrides whatever filename
the model supplied, and on the error path alike — carries the analyzed
file's filename. -/
theorem analyze_single_file_filename_override (loads : String → Option JValue)
    (fi : FileInfo) (reply : Except String String) :
    ∀ it ∈ (analyze_single_file loads fi reply).feedback, it.filename = some fi.filename := by
  cases reply with
  | error e =>
    intro it hit
    rcases List.mem_singleton.mp hit with rfl
    rfl
  | ok text =>
    cases h : try_single_file loads fi text with
    | none =>
      intro it hit
      have hr : analyze_single_file loads fi (Except.ok text)
          = error_file_feedback fi.filename ("analysis failed") := by
        show (try_single_file loads fi text).getD _ = _
        rw [h]
        rfl
      rw [hr] at hit
      rcases List.mem_singleton.mp hit with rfl
      rfl
    | some ff =>
      have hr : analyze_single_file loads fi (Except.ok text) = ff := by
        show (try_single_file loads fi text).getD _ = _
        rw [h]
        rfl
      rw [hr]
      exact (try_single_file_some loads fi text ff h).2

/-- Witness for C9: a reply whose item names a wrong filename still
comes back stamped with the analyzed file's name. -/
theorem analyze_single_file_filename_override_witness :
    ({ category := ("security"), severity := ("high"), line := 3, message := ("m"),
       suggestion := ("s"), filename := some ("a.py") } : FeedbackItem).filename
      = some fiPy.filename := by
  exact analyze_single_file_filename_override loadsItem fiPy (Except.ok ("\x7b\x7d")) _ (by decide)

/-- C8.  With fewer than two files, `analyze_cross_file_dependencies`
returns `[]` whatever the model would reply (the source returns before
issuing a request), and hence a single-file `analyze_codebase` has empty
`cross_file_issues`. -/
theorem cross_file_deps_short_circuit (loads : String → Option JValue)
    (files : List FileInfo) (h : files.length < 2) :
    (∀ reply, analyze_cross_file_dependencies loads files reply = []) ∧
    (∀ oracle pname, (analyze_codebase loads oracle files pname).cross_file_issues = []) := by
  constructor
  · intro reply
    unfold analyze_cross_file_dependencies
    rw [if_pos h]
  · intro oracle pname
    show analyze_cross_file_dependencies loads files oracle.crossReply = []
    unfold analyze_cross_file_dependencies
    rw [if_pos h]

/-- Witness for C8 on a one-file codebase. -/
theorem cross_file_deps_short_circuit_witness :
    analyze_cross_file_dependencies loadsNone [fiPy] (Except.ok ("[]")) = [] ∧
    (analyze_codebase loadsNone oracleOk [fiPy] ("p")).cross_file_issues = [] := by
  have h := cross_file_deps_short_circuit loadsNone [fiPy] (by decide)
  exact ⟨h.1 _, h.2 oracleOk ("p")⟩

theorem analyze_files_congr (loads : String → Option JValue)
    (r1 r2 : Nat → Except String String) (l : List FileInfo) (i : Nat)
    (h : ∀ j, j < l.length → r1 (i + j) = r2 (i + j)) :
    analyze_files loads r1 l i = analyze_files loads r2 l i := by
  induction l generalizing i with
  | nil => rfl
  | cons f rest ih =>
    unfold analyze_files
    have h0 : r1 i = r2 i := by
      have := h 0 (by simp)
      simpa using this
    rw [h0, ih (i + 1) ?_]
    intro j hj
    have hrew : i + 1 + j = i + (j + 1) := by omega
    rw [hrew]
    exact h (j + 1) (by simpa using Nat.succ_lt_succ hj)

/-- C7.  The pipeline is deterministic up to the model: two runs of
`analyze_codebase` on the same decoder, equal file lists and project
names, in which the model gives equal replies to the per-file and
cross-file requests, produce equal `MultiFileReviewResponse` values. -/
theorem analyze_codebase_deterministic (loads : String → Option JValue)
    (o1 o2 : ModelOracle) (files : List FileInfo) (pname : String)
    (h1 : ∀ i, i < files.length → o1.fileReply i = o2.fileReply i)
    (h2 : o1.crossReply = o2.crossReply) :
    analyze_codebase loads o1 files pname = analyze_codebase loads o2 files pname := by
  unfold analyze_codebase
  have hfa : analyze_files loads o1.fileReply files 0
      = analyze_files loads o2.fileReply files 0 :=
    analyze_files_congr loads _ _ files 0 (fun j hj => by simpa using h1 j hj)
  have hcf : analyze_cross_file_dependencies loads files o1.crossReply
      = analyze_cross_file_dependencies loads files o2.crossReply := by rw [h2]
  rw [hfa, hcf]

/-- Witness for C7 on a concrete one-file run. -/
theorem analyze_codebase_deterministic_witness :
    analyze_codebase loadsNone oracleOk [fiPy] ("p")
      = analyze_codebase loadsNone oracleOk [fiPy] ("p") :=
  analyze_codebase_deterministic loadsNone oracleOk oracleOk [fiPy] ("p")
    (fun i hi => rfl) rfl

/-- C4.  `parse_ai_response` extracts its JSON candidate in source
order — (1) the (stripped) content between the first `"```json"` marker
and the next `"```"` fence when the marker occurs; (2) otherwise the
whole stripped text when it starts with `"{"` or `"["`; (3) otherwise
the substring from the first `"{"` to the last `"}"` inclusive — and
only then decodes the candidate, returning the fixed fallback record
(score 5) when no candidate exists or decoding fails. -/
theorem parse_ai_response_extraction (loads : String → Option JValue) (text : String) :
    (∀ i, listFindSub (pyStrip text.toList) fenceJson = some i →
      ∀ k, listFindSub ((pyStrip text.toList).drop (i + 7)) threeTicks = some k →
        extract_candidate text
          = some (pyStrip (pySlice (pyStrip text.toList) (i + 7) ((i + 7 + k : Nat) : Int)))) ∧
    (listFindSub (pyStrip text.toList) fenceJson = none →
      ((pyStrip text.toList).head? = some ('{') ∨ (pyStrip text.toList).head? = some ('[')) →
      extract_candidate text = some (pyStrip text.toList)) ∧
    (listFindSub (pyStrip text.toList) fenceJson = none →
      ¬((pyStrip text.toList).head? = some ('{') ∨ (pyStrip text.toList).head? = some ('[')) →
      ∀ a b, listFindSub (pyStrip text.toList) [('{')] = some a →
        listRFindSub (pyStrip text.toList) [('}')] = some b →
        extract_candidate text = some (pySlice (pyStrip text.toList) a ((b : Int) + 1))) ∧
    (listFindSub (pyStrip text.toList) fenceJson = none →
      ¬((pyStrip text.toList).head? = some ('{') ∨ (pyStrip text.toList).head? = some ('[')) →
      (listFindSub (pyStrip text.toList) [('{')] = none ∨
        listRFindSub (pyStrip text.toList) [('}')] = none) →
      extract_candidate text = none) ∧
    (extract_candidate text = none → parse_ai_response loads text = parse_fallback) ∧
    (∀ cand, extract_candidate text = some cand →
      parse_ai_response loads text
        = match loads (String.mk cand) with
          | some v => v
          | none => parse_fallback) ∧
    (∃ d, parse_fallback = JValue.obj d ∧ dictGet d ("score") = some (.num 5)) := by
  refine ⟨?_, ?_, ?_, ?_, ?_, ?_, ⟨_, rfl, rfl⟩⟩
  · intro i hi k hk
    replace hi : listFindSub (pyStrip text.data) fenceJson = some i := hi
    replace hk : listFindSub (List.drop (i + 7) (pyStrip text.data)) threeTicks = some k := hk
    simp [extract_candidate, fencedCandidate, hi, hk]
  · intro hnone hhead
    replace hnone : listFindSub (pyStrip text.data) fenceJson = none := hnone
    replace hhead : (pyStrip text.data).head? = some ('{')
        ∨ (pyStrip text.data).head? = some ('[') := hhead
    simp [extract_candidate, hnone, hhead]
  · intro hnone hnb a b ha hb
    replace hnone : listFindSub (pyStrip text.data) fenceJson = none := hnone
    replace hnb : ¬((pyStrip text.data).head? = some ('{')
        ∨ (pyStrip text.data).head? = some ('[')) := hnb
    replace ha : listFindSub (pyStrip text.data) [('{')] = some a := ha
    replace hb : listRFindSub (pyStrip text.data) [('}')] = some b := hb
    simp [extract_candidate, hnone, hnb, ha, hb]
  · intro hnone hnb hcase
    replace hnone : listFindSub (pyStrip text.data) fenceJson = none := hnone
    replace hnb : ¬((pyStrip text.data).head? = some ('{')
        ∨ (pyStrip text.data).head? = some ('[')) := hnb
    rcases hcase with hA | hB
    · replace hA : listFindSub (pyStrip text.data) [('{')] = none := hA
      simp [extract_candidate, hnone, hnb, hA]
    · replace hB : listRFindSub (pyStrip text.data) [('}')] = none := hB
      rcases hfind : listFindSub (pyStrip text.data) [('{')] with _ | a
      · simp [extract_candidate, hnone, hnb, hfind]
      · simp [extract_candidate, hnone, hnb, hfind, hB]
  · intro h
    unfold parse_ai_response
    rw [h]
  · intro cand h
    unfold parse_ai_response
    rw [h]

/-- Witness for C4: a fenced reply is cut between the fences, and with a
failing decoder the fallback is returned. -/
theorem parse_ai_response_extraction_witness :
    extract_candidate ("pre ```json [1] ``` post") = some (("[1]").toList) ∧
    parse_ai_response loadsNone ("pre ```json [1] ``` post") = parse_fallback := by
  have h := parse_ai_response_extraction loadsNone ("pre ```json [1] ``` post")
  constructor
  · have h1 := h.1 4 (by rfl) 5 (by rfl)
    rw [h1]
    rfl
  · have h6 := h.2.2.2.2.2.1 (("[1]").toList) ?_
    · rw [h6]
      rfl
    · have h1 := h.1 4 (by rfl) 5 (by rfl)
      rw [h1]
      rfl

/-! ### Narrative-selection lemmas -/

theorem string_ne_of_heads (s t : String) (c d : Char) (hs : s.data.head? = some c)
    (ht : t.data.head? = some d) (hcd : c ≠ d) : s ≠ t := by
  intro he
  rw [he, ht] at hs
  cases hs
  exact hcd rfl

theorem filter_high_pos (l : List FeedbackItem) :
    0 < (l.filter fun f => f.severity == ("high")).length ↔
      ∃ f ∈ l, f.severity = ("high") := by
  rw [List.length_pos]
  constructor
  · intro h
    rcases List.exists_mem_of_ne_nil _ h with ⟨f, hf⟩
    exact ⟨f, (List.mem_filter.mp hf).1, by simpa using (List.mem_filter.mp hf).2⟩
  · rintro ⟨f, hf, hs⟩ hnil
    have hmem : f ∈ l.filter fun f => f.severity == ("high") :=
      List.mem_filter.mpr ⟨hf, by simpa using hs⟩
    rw [hnil] at hmem
    cases hmem

theorem sum_map_pos (fas : List FileFeedback) (g : FileFeedback → Nat) :
    0 < (fas.map g).sum ↔ ∃ fa ∈ fas, 0 < g fa := by
  induction fas with
  | nil => simp
  | cons fa rest ih =>
    simp only [List.map_cons, List.sum_cons, List.mem_cons]
    constructor
    · intro h
      rcases Nat.lt_or_ge 0 (g fa) with hfa | hfa
      · exact ⟨fa, Or.inl rfl, hfa⟩
      · have hg : g fa = 0 := by omega
        rw [hg] at h
        simp only [Nat.zero_add] at h
        rcases ih.mp h with ⟨x, hx, hgx⟩
        exact ⟨x, Or.inr hx, hgx⟩
    · rintro ⟨x, hx | hx, hgx⟩
      · subst hx
        omega
      · have := ih.mpr ⟨x, hx, hgx⟩
        omega

theorem high_pos_iff (fas : List FileFeedback) (cfi : List FeedbackItem) :
    0 < (fas.map fun fa => (fa.feedback.filter fun f => f.severity == ("high")).length).sum
        + (cfi.filter fun f => f.severity == ("high")).length ↔
      ((∃ fa ∈ fas, ∃ f ∈ fa.feedback, f.severity = ("high"))
        ∨ ∃ f ∈ cfi, f.severity = ("high")) := by
  rw [show ∀ a b : Nat, (0 < a + b ↔ 0 < a ∨ 0 < b) from fun a b => by omega]
  rw [sum_map_pos, filter_high_pos]
  constructor
  · rintro (⟨fa, hfa, hpos⟩ | hc)
    · exact Or.inl ⟨fa, hfa, (filter_high_pos fa.feedback).mp hpos⟩
    · exact Or.inr hc
  · rintro (⟨fa, hfa, hex⟩ | hc)
    · exact Or.inl ⟨fa, hfa, (filter_high_pos fa.feedback).mpr hex⟩
    · exact Or.inr hc

/-- C6.  `generate_overall_summary` returns the "Excellent codebase!"
narrative exactly when the total issue count (per-file feedback plus
cross-file issues) is zero; with a nonzero total it returns the
"Codebase needs attention" narrative naming the total and high-severity
counts exactly when some issue has severity `"high"`, and the "Good
codebase with room for improvement" narrative otherwise. -/
theorem generate_overall_summary_narrative (fas : List FileFeedback)
    (cfi : List FeedbackItem) :
    (generate_overall_summary fas cfi
        = ("Excellent codebase! No significant issues found across all files.")
      ↔ (fas.map fun fa => fa.feedback.length).sum + cfi.length = 0) ∧
    ((fas.map fun fa => fa.feedback.length).sum + cfi.length ≠ 0 →
      (generate_overall_summary fas cfi
          = ("Codebase needs attention: ")
            ++ toString ((fas.map fun fa => fa.feedback.length).sum + cfi.length)
            ++ (" total issues found, including ")
            ++ toString ((fas.map fun fa =>
                  (fa.feedback.filter fun f => f.severity == ("high")).length).sum
                + (cfi.filter fun f => f.severity == ("high")).length)
            ++ (" high-severity issues.")
        ↔ ((∃ fa ∈ fas, ∃ f ∈ fa.feedback, f.severity = ("high"))
            ∨ ∃ f ∈ cfi, f.severity = ("high")))) ∧
    ((fas.map fun fa => fa.feedback.length).sum + cfi.length ≠ 0 →
      ¬((∃ fa ∈ fas, ∃ f ∈ fa.feedback, f.severity = ("high"))
          ∨ ∃ f ∈ cfi, f.severity = ("high")) →
      generate_overall_summary fas cfi
        = ("Good codebase with room for improvement: ")
          ++ toString ((fas.map fun fa => fa.feedback.length).sum + cfi.length)
          ++ (" minor to medium issues found.")) := by
  unfold generate_overall_summary
  by_cases htot : (fas.map fun fa => fa.feedback.length).sum + cfi.length = 0
  · rw [if_pos htot]
    exact ⟨iff_of_true rfl htot, fun h => absurd htot h, fun h => absurd htot h⟩
  · rw [if_neg htot]
    by_cases hh : 0 < (fas.map fun fa =>
          (fa.feedback.filter fun f => f.severity == ("high")).length).sum
        + (cfi.filter fun f => f.severity == ("high")).length
    · rw [if_pos hh]
      refine ⟨iff_of_false (string_ne_of_heads _ _ ('C') ('E') rfl rfl (by decide)) htot,
        fun _ => iff_of_true rfl ((high_pos_iff fas cfi).mp hh), fun _ hno => ?_⟩
      exact absurd ((high_pos_iff fas cfi).mp hh) hno
    · rw [if_neg hh]
      refine ⟨iff_of_false (string_ne_of_heads _ _ ('G') ('E') rfl rfl (by decide)) htot,
        fun _ => iff_of_false (string_ne_of_heads _ _ ('G') ('C') rfl rfl (by decide))
          (fun hx => hh ((high_pos_iff fas cfi).mpr hx)), fun _ _ => rfl⟩

/-- Witness for C6 on one low-severity cross-file issue. -/
theorem generate_overall_summary_narrative_witness :
    generate_overall_summary [] [cross_error_item ("x")]
      = ("Good codebase with room for improvement: ") ++ toString (1 : Nat)
        ++ (" minor to medium issues found.") := by
  have h := (generate_overall_summary_narrative [] [cross_error_item ("x")]).2.2
    (by decide) (by decide)
  exact h

/-! ### Character-case and split lemmas for language detection -/

theorem toNat_ofNat_valid (n : Nat) (h : n < 55296) : (Char.ofNat n).toNat = n := by
  rw [Char.ofNat, dif_pos (Or.inl h)]
  rfl

theorem toLower_ne_dot (c : Char) (h : c ≠ ('.')) : Char.toLower c ≠ ('.') := by
  have hdef : Char.toLower c
      = if c.toNat ≥ 65 ∧ c.toNat ≤ 90 then Char.ofNat (c.toNat + 32) else c := rfl
  rw [hdef]
  split_ifs with hr
  · intro he
    have h46 : (Char.ofNat (c.toNat + 32)).toNat = ('.').toNat := by rw [he]
    rw [toNat_ofNat_valid _ (by omega)] at h46
    have hdot : ('.').toNat = 46 := rfl
    rw [hdot] at h46
    omega
  · exact h

theorem toLower_idem (c : Char) : Char.toLower (Char.toLower c) = Char.toLower c := by
  have hdef : ∀ x : Char, Char.toLower x
      = if x.toNat ≥ 65 ∧ x.toNat ≤ 90 then Char.ofNat (x.toNat + 32) else x := fun x => rfl
  by_cases hr : c.toNat ≥ 65 ∧ c.toNat ≤ 90
  · have h1 : Char.toLower c = Char.ofNat (c.toNat + 32) := by rw [hdef c, if_pos hr]
    have h2 : (Char.toLower c).toNat = c.toNat + 32 := by
      rw [h1]
      exact toNat_ofNat_valid _ (by omega)
    have h3 : ¬((Char.toLower c).toNat ≥ 65 ∧ (Char.toLower c).toNat ≤ 90) := by
      rw [h2]
      omega
    rw [hdef (Char.toLower c), if_neg h3]
  · have h1 : Char.toLower c = c := by rw [hdef c, if_neg hr]
    rw [h1, h1]

theorem pyLower_idem (l : List Char) : pyLower (pyLower l) = pyLower l := by
  unfold pyLower
  rw [List.map_map]
  exact List.map_congr_left fun c _ => toLower_idem c

theorem dot_mem_pyLower (l : List Char) : ('.') ∈ pyLower l ↔ ('.') ∈ l := by
  unfold pyLower
  constructor
  · intro h
    rcases List.mem_map.mp h with ⟨c, hc, he⟩
    by_cases hd : c = ('.')
    · rwa [hd] at hc
    · exact absurd he (toLower_ne_dot c hd)
  · intro h
    exact List.mem_map.mpr ⟨('.'), h, rfl⟩

theorem pySplit_ne_nil (sep : Char) (l : List Char) : pySplit sep l ≠ [] := by
  cases l with
  | nil => simp [pySplit]
  | cons c rest =>
    unfold pySplit
    dsimp only
    by_cases h : c = sep
    · simp [h]
    · rw [if_neg h]
      cases hr : pySplit sep rest <;> simp

theorem pySplit_no_sep (sep : Char) (l : List Char) (h : sep ∉ l) : pySplit sep l = [l] := by
  induction l with
  | nil => rfl
  | cons c rest ih =>
    have hc : ¬ c = sep := fun he => h (by rw [he]; exact List.mem_cons_self sep rest)
    have hrest : sep ∉ rest := fun hm => h (List.mem_cons_of_mem c hm)
    unfold pySplit
    dsimp only
    rw [if_neg hc, ih hrest]

theorem pySplit_length_two (sep : Char) (l : List Char) (h : sep ∈ l) :
    2 ≤ (pySplit sep l).length := by
  induction l with
  | nil => cases h
  | cons c rest ih =>
    unfold pySplit
    dsimp only
    by_cases hc : c = sep
    · rw [if_pos hc]
      cases hr : pySplit sep rest with
      | nil => exact absurd hr (pySplit_ne_nil sep rest)
      | cons a t => simp
    · rw [if_neg hc]
      have hrest : sep ∈ rest := by
        rcases List.mem_cons.mp h with he | hm
        · exact absurd he.symm hc
        · exact hm
      have h2 := ih hrest
      cases hr : pySplit sep rest with
      | nil => exact absurd hr (pySplit_ne_nil sep rest)
      | cons a t =>
        rw [hr] at h2
        simp only [List.length_cons] at h2 ⊢
        omega

theorem getLastD_pySplit (sep : Char) (l1 l2 : List Char) (h : sep ∉ l2) :
    (pySplit sep (l1 ++ sep :: l2)).getLastD [] = l2 := by
  induction l1 with
  | nil =>
    show (pySplit sep (sep :: l2)).getLastD [] = l2
    unfold pySplit
    dsimp only
    rw [if_pos rfl, pySplit_no_sep sep l2 h]
    rfl
  | cons c l1 ih =>
    show (pySplit sep (c :: (l1 ++ sep :: l2))).getLastD [] = l2
    unfold pySplit
    dsimp only
    by_cases hc : c = sep
    · rw [if_pos hc, List.getLastD_cons]
      exact ih
    · rw [if_neg hc]
      cases hr : pySplit sep (l1 ++ sep :: l2) with
      | nil => exact absurd hr (pySplit_ne_nil _ _)
      | cons a t =>
        have hlen := pySplit_length_two sep (l1 ++ sep :: l2) (by simp)
        rw [hr] at hlen
        have ihr : (a :: t).getLastD [] = l2 := by rw [← hr]; exact ih
        cases t with
        | nil => simp at hlen
        | cons b t2 =>
          rw [List.getLastD_cons] at ihr ⊢
          rw [List.getLastD_cons] at ihr ⊢
          exact ihr

/-- C10.  `detect_language_from_filename` is total (a Lean function);
a filename without a dot maps to `PYTHON`; recognition is
case-insensitive (lowercasing the filename does not change the result);
and for a filename of the form `base ++ "." ++ ext` with no further dot
in `ext`, the result is exactly the `extension_map` lookup of the
lowercased `ext`, defaulting to `PYTHON` for unrecognized extensions. -/
theorem detect_language_from_filename_spec (filename : String) :
    (('.') ∉ filename.toList → detect_language_from_filename filename
        = SupportedLanguage.PYTHON) ∧
    detect_language_from_filename (String.mk (pyLower filename.toList))
      = detect_language_from_filename filename ∧
    (∀ base ext, ('.') ∉ ext →
      detect_language_from_filename (String.mk (base ++ ('.') :: ext))
        = (((extension_map.find? fun p => p.1.toList = pyLower ext).map Prod.snd).getD
            SupportedLanguage.PYTHON)) := by
  refine ⟨?_, ?_, ?_⟩
  · intro h
    have hc : filename.toList.contains ('.') = false := by
      cases hb : filename.toList.contains ('.') with
      | false => rfl
      | true => exact absurd (List.elem_iff.mp hb) h
    unfold detect_language_from_filename
    rw [hc]
    show ((extension_map.find? fun p => p.1.toList = []).map Prod.snd).getD
        SupportedLanguage.PYTHON = SupportedLanguage.PYTHON
    decide
  · unfold detect_language_from_filename
    have htl : (String.mk (pyLower filename.toList)).toList = pyLower filename.toList := rfl
    rw [htl]
    by_cases h : ('.') ∈ filename.toList
    · have h1 : filename.toList.contains ('.') = true := List.elem_iff.mpr h
      have h2 : (pyLower filename.toList).contains ('.') = true :=
        List.elem_iff.mpr ((dot_mem_pyLower filename.toList).mpr h)
      rw [h1, h2, pyLower_idem]
    · have h1 : filename.toList.contains ('.') = false := by
        cases hb : filename.toList.contains ('.') with
        | false => rfl
        | true => exact absurd (List.elem_iff.mp hb) h
      have h2 : (pyLower filename.toList).contains ('.') = false := by
        cases hb : (pyLower filename.toList).contains ('.') with
        | false => rfl
        | true =>
          exact absurd ((dot_mem_pyLower filename.toList).mp (List.elem_iff.mp hb)) h
      rw [h1, h2]
      rfl
  · intro base ext hext
    unfold detect_language_from_filename
    have htl : (String.mk (base ++ ('.') :: ext)).toList = base ++ ('.') :: ext := rfl
    rw [htl]
    have h1 : (base ++ ('.') :: ext).contains ('.') = true :=
      List.elem_iff.mpr (by simp)
    rw [h1]
    have h2 : pyLower (base ++ ('.') :: ext) = pyLower base ++ ('.') :: pyLower ext := by
      unfold pyLower
      rw [List.map_append, List.map_cons]
      rfl
    rw [h2]
    show ((extension_map.find? fun p =>
        p.1.toList = (pySplit ('.') (pyLower base ++ ('.') :: pyLower ext)).getLastD []).map
          Prod.snd).getD SupportedLanguage.PYTHON = _
    rw [getLastD_pySplit _ _ _ ((dot_mem_pyLower ext).not.mpr hext)]

/-- Witness for C10 at concrete filenames. -/
theorem detect_language_from_filename_spec_witness :
    detect_language_from_filename ("Main.TSX") = SupportedLanguage.TYPESCRIPT ∧
    detect_language_from_filename ("noext") = SupportedLanguage.PYTHON := by
  constructor
  · have h3 := (detect_language_from_filename_spec ("Main.TSX")).2.2
      (("Main").toList) (("TSX").toList) (by decide)
    exact h3.trans (by decide)
  · exact (detect_language_from_filename_spec ("noext")).1 (by decide)

end CodeReview
